import Mathlib

/-!
Verification of the Python environment discovery engine
(`src/python_environment_select.rs`): a recursive filesystem scanner for
virtual environments, a conda report parser, an aggregator, and the slash
command dispatch surface.

The filesystem is modelled as a finite tree of named entries.  Paths are
lists of components (a Rust `PathBuf` relative to the modelled root); a
Rust `Path::exists` stat becomes a lookup in the tree.  Strings are
modelled at character granularity; on the ASCII data these functions
handle, Rust's byte lengths coincide with character counts.
-/

namespace PyEnvSelect

/-- A node of the modelled filesystem.

* `file n` — a non-directory entry named `n`.
* `dir n readErr sub` — a directory named `n` whose listing is `sub`;
  `readErr = some e` means `fs::read_dir` on it fails with error text `e`
  (stat-based existence checks on its subtree still see `sub`, since
  listability and stat-ability are independent).
* `badEntry` — an entry whose `DirEntry` result is an `Err` during
  `read_dir` iteration; its identity is unknown to the program, and
  `filter_map(Result::ok)` drops it. -/
inductive FS : Type where
  | file : String → FS
  | dir : String → Option String → List FS → FS
  | badEntry : FS

/-- Environment record: mirrors `struct PythonEnvironment { name, python_path }`.
An empty `python_path` models `PathBuf::new()`. -/
structure PythonEnvironment where
  name : String
  python_path : List String
deriving DecidableEq, Repr

/-- Find a named child among a directory listing.  A `badEntry` has no
observable name, so it never matches a stat lookup. -/
def childNamed (entries : List FS) (c : String) : Option FS :=
  entries.find? fun e =>
    match e with
    | .file n => n == c
    | .dir n _ _ => n == c
    | .badEntry => false

/-- Models `Path::exists` relative to a directory listing: the path resolves
through directories, with the final component allowed to be any entry. -/
def pathExists (entries : List FS) : List String → Bool
  | [] => true
  | c :: rest =>
    match childNamed entries c with
    | some (.dir _ _ sub) => pathExists sub rest
    | some _ => rest.isEmpty
    | none => false

/-- Models `PathBuf::display`: components joined with a separator
(`PathBuf::new()` displays as the empty string). -/
def displayPath (p : List String) : String :=
  String.intercalate "/" p

/-- Embedding of `is_venv(path)`: the directory whose listing is `sub`
contains `bin/activate` or `pyvenv.cfg`.  Pure existence checks. -/
def is_venv (sub : List FS) : Bool :=
  pathExists sub ["bin", "activate"] || pathExists sub ["pyvenv.cfg"]

/-- Embedding of `find_python_executable(venv_path)` for a directory at
path `venv_path` whose listing is `sub`: returns `venv_path/bin/python`
exactly when that path exists. -/
def find_python_executable (sub : List FS) (venv_path : List String) :
    Option (List String) :=
  if pathExists sub ["bin", "python"] then
    some (venv_path ++ ["bin", "python"])
  else
    none

/-- Resolve a directory path from the modelled root to its listing
(every component must be a directory). -/
def lookupDir (entries : List FS) : List String → Option (List FS)
  | [] => some entries
  | c :: rest =>
    match childNamed entries c with
    | some (.dir _ _ sub) => lookupDir sub rest
    | _ => none

/-- The source function `find_python_executable` invoked on an arbitrary path string resolved
against the modelled root `fs` (the form the conda parser uses). -/
def find_python_executable_from_root (fs : List FS) (venv_path : List String) :
    Option (List String) :=
  match lookupDir fs venv_path with
  | some sub => find_python_executable sub venv_path
  | none => none

mutual

/-- One iteration of the `for entry in entries` loop of `find_venvs_rec`:
non-directories contribute nothing; a directory classified as a venv is
resolved (one record on success, none on failure, no recursion); any
other directory is recursed into. -/
def find_venvs_entry (dirPath : List String) : FS → List PythonEnvironment
  | .file _ => []
  | .badEntry => []
  | .dir n readErr sub =>
    if is_venv sub then
      match find_python_executable sub (dirPath ++ [n]) with
      | some python_path => [⟨n, python_path⟩]
      | none => []
    else
      find_venvs_dir (dirPath ++ [n]) readErr sub

/-- Embedding of `find_venvs_rec(dir)` for the directory at `dirPath`
with read outcome `readErr` and listing `entries`: an unreadable
directory yields a single diagnostic record with an empty path, a
readable one is iterated. -/
def find_venvs_dir (dirPath : List String) (readErr : Option String)
    (entries : List FS) : List PythonEnvironment :=
  match readErr with
  | some e =>
    [⟨"Error reading directory (" ++ displayPath dirPath ++ "): " ++ e, []⟩]
  | none => find_venvs_list dirPath entries

/-- The entry loop of `find_venvs_rec`, pushing results in listing order. -/
def find_venvs_list (dirPath : List String) : List FS → List PythonEnvironment
  | [] => []
  | f :: rest => find_venvs_entry dirPath f ++ find_venvs_list dirPath rest

end

/-- Embedding of `find_venvs_from_worktree`: the worktree supplies the
root path and the root directory's read outcome and listing. -/
structure Worktree where
  root_path : List String
  root_read_err : Option String
  root_entries : List FS

/-- `find_venvs_from_worktree(worktree)`: scan from the worktree root. -/
def find_venvs_from_worktree (wt : Worktree) : List PythonEnvironment :=
  find_venvs_dir wt.root_path wt.root_read_err wt.root_entries

/-- Strip one trailing carriage return (the treatment Rust `str::lines`
applies to every line that was terminated by a newline). -/
def stripCR (l : String) : String :=
  if l.endsWith "\r" then l.dropRight 1 else l

/-- Embedding of Rust `str::lines`: split at every newline, strip a
carriage return from each newline-terminated piece, and do not produce a
final empty line for a trailing newline. -/
def rustLines (s : String) : List String :=
  if s.isEmpty then []
  else
    let parts := s.splitOn "\n"
    let init := parts.dropLast.map stripCR
    match parts.getLast? with
    | some "" => init
    | some last => init ++ [last]
    | none => init

/-- Rust `str::split_whitespace`: split on whitespace runs, dropping
empty pieces. -/
def split_whitespace (s : String) : List String :=
  (s.split Char.isWhitespace).filter fun t => !t.isEmpty

/-- Models `PathBuf::from` on a path string, as components relative to the
modelled root. -/
def parsePathBuf (s : String) : List String :=
  (s.splitOn "/").filter fun t => !t.isEmpty

/-- The header loop of `parse_conda_output`: `while let Some(line) =
lines.next()` skips lines starting with a hash and also consumes the
first line that does not. -/
def skip_header : List String → List String
  | [] => []
  | l :: rest => if l.startsWith "#" then skip_header rest else rest

/-- Embedding of `parse_conda_output(output)`.  The `fs` argument is the
modelled filesystem root against which `find_python_executable` resolves
the path in column 1. -/
def parse_conda_output (fs : List FS) (output : String) :
    Except String (List PythonEnvironment) :=
  Except.ok <|
    (skip_header (rustLines output)).flatMap fun line =>
      match split_whitespace line with
      | p0 :: p1 :: _ =>
        (match find_python_executable_from_root fs (parsePathBuf p1) with
         | some python_path => [⟨p0, python_path⟩]
         | none => [])
      | _ => []

/-- Embedding of `find_envs_from_conda`.  The `conda` argument models the
outcome of running `conda info --envs`: `Except.ok stdout` when the
command launches and exits successfully, `Except.error msg` collapsing
both launch failure and non-zero exit, exactly as the Rust maps them. -/
def find_envs_from_conda (fs : List FS) (conda : Except String String) :
    Except String (List PythonEnvironment) :=
  match conda with
  | .error e => .error e
  | .ok out => parse_conda_output fs out

/-- Embedding of `get_all_python_environments(worktree)`: worktree scan
results (when a worktree is supplied) extended with conda results (when
`find_envs_from_conda` returns `Ok`). -/
def get_all_python_environments (fs : List FS) (conda : Except String String)
    (worktree : Option Worktree) : List PythonEnvironment :=
  (match worktree with
   | some wt => find_venvs_from_worktree wt
   | none => []) ++
  (match find_envs_from_conda fs conda with
   | .ok conda_envs => conda_envs
   | .error _ => [])

/-- Slash command, as seen by the extension: only its name is consulted. -/
structure SlashCommand where
  name : String

/-- One labelled output section covering a byte range of the text. -/
structure SlashCommandOutputSection where
  range_start : Nat
  range_end : Nat
  label : String
deriving DecidableEq, Repr

/-- Output of a slash command: labelled sections plus the text itself. -/
structure SlashCommandOutput where
  sections : List SlashCommandOutputSection
  text : String
deriving DecidableEq, Repr

/-- Argument completion item (never constructed by this extension). -/
structure SlashCommandArgumentCompletion where
  label : String
  new_text : String
  run_command : Bool
deriving DecidableEq, Repr

/-- Embedding of `complete_slash_command_argument`: the three known
command names complete to an empty list; anything else is an error
naming the command. -/
def complete_slash_command_argument (command : SlashCommand)
    (_args : List String) :
    Except String (List SlashCommandArgumentCompletion) :=
  if command.name = "pyenvcur" then .ok []
  else if command.name = "pyenvlst" then .ok []
  else if command.name = "pyenvselect" then .ok []
  else .error ("unknown slash command: \"" ++ command.name ++ "\"")

/-- Models the maximum name length computation: map each record to its
name length and take the maximum, defaulting to zero on an empty list. -/
def max_name_length (envs : List PythonEnvironment) : Nat :=
  envs.foldr (fun e acc => max e.name.length acc) 0

/-- Left-aligned padding of the Rust width format specifier: append
spaces up to width `w` (no truncation when the name is longer). -/
def pad_name (s : String) (w : Nat) : String :=
  s ++ String.mk (List.replicate (w - s.length) ' ')

/-- One formatted line of the `pyenvlst` listing: padded name, four
spaces, displayed path. -/
def format_env (w : Nat) (e : PythonEnvironment) : String :=
  pad_name e.name w ++ "    " ++ displayPath e.python_path

/-- The `pyenvlst` text: aligned lines joined by newlines, wrapped in the
banner, followed by the record count line. -/
def render_envs (all_envs : List PythonEnvironment) : String :=
  let formatted := all_envs.map (format_env (max_name_length all_envs))
  let text := String.intercalate "\n" formatted
  let text := "======\n " ++ text ++ " ======"
  text ++ "\nlen: " ++ toString all_envs.length

/-- Embedding of `run_slash_command`.  `fs` and `conda` model the ambient
filesystem and the conda invocation outcome consulted by `pyenvlst`. -/
def run_slash_command (fs : List FS) (conda : Except String String)
    (command : SlashCommand) (args : List String)
    (worktree : Option Worktree) : Except String SlashCommandOutput :=
  if command.name = "pyenvcur" then
    if args.isEmpty then .error "nothing to echo"
    else
      let text := String.intercalate " " args
      .ok ⟨[⟨0, text.length, "Echo"⟩], text⟩
  else if command.name = "pyenvlst" then
    let text := render_envs (get_all_python_environments fs conda worktree)
    .ok ⟨[⟨0, text.length, "Python Environments"⟩], text⟩
  else if command.name = "pyenvselect" then
    if args.isEmpty then .error "nothing to echo"
    else
      let text := String.intercalate " " args
      .ok ⟨[⟨0, text.length, "Echo"⟩], text⟩
  else
    .error ("unknown slash command: \"" ++ command.name ++ "\"")

/-- The Report Parser grammar as the specification words it, for
comparison with `parse_conda_output`: skip the leading lines that start
with a hash, additionally discard the first line that does not start
with a hash (even when there are no hash lines at all), and from each
remaining line split on whitespace runs form a record from token 0 and
the interpreter resolved from token 1 exactly when the line has at least
two tokens and resolution succeeds. -/
def parse_claim_model (fs : List FS) (output : String) :
    List PythonEnvironment :=
  (((rustLines output).dropWhile fun l => l.startsWith "#").drop 1).flatMap
    fun line =>
      let parts := split_whitespace line
      if 2 ≤ parts.length then
        match find_python_executable_from_root fs (parsePathBuf (parts.getD 1 "")) with
        | some python_path => [⟨parts.getD 0 "", python_path⟩]
        | none => []
      else []

/-- The consuming header loop is the same as dropping the hash-prefixed
prefix and then one more line. -/
theorem skip_header_eq_dropWhile_drop (ls : List String) :
    skip_header ls = (ls.dropWhile fun l => l.startsWith "#").drop 1 := by
  induction ls with
  | nil => rfl
  | cons l rest ih =>
    by_cases h : l.startsWith "#" <;>
      simp [skip_header, List.dropWhile_cons, h, ih]

/-- C2: for every input text, parse skips leading lines that start with
a hash, additionally discards the first line that does not start with a
hash (even when the input contains no hash-prefixed lines at all), and
from each remaining line split on whitespace runs produces a record with
name equal to token 0 and interpreter path resolved from token 1 via the
interpreter resolver exactly when the line has two or more tokens and
resolution succeeds; lines with fewer than two tokens contribute no
record. -/
theorem parse_conda_output_matches_claim_grammar (fs : List FS)
    (output : String) :
    parse_conda_output fs output = Except.ok (parse_claim_model fs output) := by
  unfold parse_conda_output parse_claim_model
  rw [skip_header_eq_dropWhile_drop]
  congr 1
  apply List.flatMap_congr
  intro line _
  rcases hp : split_whitespace line with _ | ⟨p0, _ | ⟨p1, restTokens⟩⟩ <;>
    simp [hp]

/-- C5: for every input text, parse returns a successful (non-error)
result; the parsing component never produces the error outcome of its
interface. -/
theorem parse_conda_output_never_errors (fs : List FS) (output : String) :
    ∃ envs, parse_conda_output fs output = Except.ok envs :=
  ⟨_, rfl⟩

/-- C6: for every directory, the marker detector classifies it as an
environment if and only if an entry exists at bin/activate or at
pyvenv.cfg under it; both are pure existence checks (the model carries
no file contents because the code examines none). -/
theorem is_venv_iff_marker_exists (sub : List FS) :
    is_venv sub = true ↔
      (pathExists sub ["bin", "activate"] = true ∨
        pathExists sub ["pyvenv.cfg"] = true) := by
  simp [is_venv]

/-- Witness for C6 at a concrete listing holding only pyvenv.cfg. -/
theorem is_venv_iff_marker_exists_witness :
    is_venv [FS.file "pyvenv.cfg"] = true :=
  (is_venv_iff_marker_exists [FS.file "pyvenv.cfg"]).mpr (Or.inr rfl)

/-- C7: for every directory path, the interpreter resolver returns the
path dir/bin/python when an entry exists at exactly that path and
returns none otherwise, and no other interpreter location is ever
returned — in both its scanner form and its root-resolved form used by
the conda parser. -/
theorem find_python_executable_spec (fs sub : List FS) (d : List String) :
    (pathExists sub ["bin", "python"] = true →
      find_python_executable sub d = some (d ++ ["bin", "python"])) ∧
    (pathExists sub ["bin", "python"] = false →
      find_python_executable sub d = none) ∧
    (∀ p, find_python_executable sub d = some p → p = d ++ ["bin", "python"]) ∧
    (∀ p, find_python_executable_from_root fs d = some p →
      p = d ++ ["bin", "python"]) := by
  refine ⟨fun h => by simp [find_python_executable, h],
          fun h => by simp [find_python_executable, h],
          fun p hp => ?_, fun p hp => ?_⟩
  · unfold find_python_executable at hp
    split at hp
    · exact (Option.some.injEq _ _ ▸ hp).symm
    · exact absurd hp (by simp)
  · unfold find_python_executable_from_root at hp
    split at hp
    · unfold find_python_executable at hp
      split at hp
      · exact (Option.some.injEq _ _ ▸ hp).symm
      · exact absurd hp (by simp)
    · exact absurd hp (by simp)

/-- Witness for C7 at a concrete directory listing containing
bin/python. -/
theorem find_python_executable_spec_witness :
    pathExists [FS.dir "bin" none [FS.file "python"]] ["bin", "python"] = true ∧
    find_python_executable [FS.dir "bin" none [FS.file "python"]] ["v"] =
      some (["v"] ++ ["bin", "python"]) :=
  ⟨rfl,
    (find_python_executable_spec [] [FS.dir "bin" none [FS.file "python"]]
      ["v"]).1 rfl⟩

/-- Evaluation of the scanner on a directory entry classified as an
environment: the outcome is fully determined by the name, the parent
path and the bin/python existence check. -/
theorem find_venvs_entry_of_is_venv (dirPath : List String) (n : String)
    (readErr : Option String) (sub : List FS) (hv : is_venv sub = true) :
    find_venvs_entry dirPath (FS.dir n readErr sub) =
      if pathExists sub ["bin", "python"] then
        [⟨n, dirPath ++ [n] ++ ["bin", "python"]⟩]
      else [] := by
  rw [find_venvs_entry, if_pos hv]
  unfold find_python_executable
  by_cases hx : pathExists sub ["bin", "python"] <;> simp [hx]

/-- C1: for every directory that the marker detector classifies as an
environment, the scanner emits exactly one record when dir/bin/python
exists (with that path as interpreter path and the final path component
as name) and zero records otherwise; and the scanner never recurses into
that directory: its output is unchanged under any replacement of the
directory's read outcome and interior that preserves the marker
classification and the bin/python check. -/
theorem scanner_marked_dir_one_record_no_descent (dirPath : List String)
    (n : String) (readErr : Option String) (sub : List FS)
    (hv : is_venv sub = true) :
    (find_venvs_entry dirPath (FS.dir n readErr sub) =
      if pathExists sub ["bin", "python"] then
        [⟨n, dirPath ++ [n] ++ ["bin", "python"]⟩]
      else []) ∧
    (∀ (readErr₂ : Option String) (sub₂ : List FS), is_venv sub₂ = true →
      pathExists sub₂ ["bin", "python"] = pathExists sub ["bin", "python"] →
      find_venvs_entry dirPath (FS.dir n readErr₂ sub₂) =
        find_venvs_entry dirPath (FS.dir n readErr sub)) := by
  refine ⟨find_venvs_entry_of_is_venv dirPath n readErr sub hv, ?_⟩
  intro readErr₂ sub₂ hv₂ hx
  rw [find_venvs_entry_of_is_venv dirPath n readErr₂ sub₂ hv₂,
    find_venvs_entry_of_is_venv dirPath n readErr sub hv, hx]

/-- Witness for C1 at a concrete environment directory holding
bin/activate and bin/python. -/
theorem scanner_marked_dir_one_record_no_descent_witness :
    is_venv [FS.dir "bin" none [FS.file "activate", FS.file "python"]] = true ∧
    find_venvs_entry []
        (FS.dir "venv" none
          [FS.dir "bin" none [FS.file "activate", FS.file "python"]]) =
      (if pathExists [FS.dir "bin" none [FS.file "activate", FS.file "python"]]
            ["bin", "python"] then
        [⟨"venv", [] ++ ["venv"] ++ ["bin", "python"]⟩]
      else []) :=
  ⟨rfl,
    (scanner_marked_dir_one_record_no_descent [] "venv" none
      [FS.dir "bin" none [FS.file "activate", FS.file "python"]] rfl).1⟩

/-- C3: for every directory that cannot be listed during a scan, the
scanner emits exactly one diagnostic record whose name contains the
directory path and the error text and whose interpreter path is empty,
does not propagate the error (the scan returns a plain list and
continues into sibling directories), and every such diagnostic record
has an empty interpreter path. -/
theorem scanner_unreadable_dir_diagnostic (dirPath : List String)
    (e : String) (entries : List FS) (n : String) (sub rest : List FS)
    (hn : is_venv sub = false) :
    (find_venvs_dir dirPath (some e) entries =
      [⟨"Error reading directory (" ++ displayPath dirPath ++ "): " ++ e, []⟩]) ∧
    (∃ pre post,
      "Error reading directory (" ++ displayPath dirPath ++ "): " ++ e =
        pre ++ displayPath dirPath ++ post) ∧
    (∃ pre,
      "Error reading directory (" ++ displayPath dirPath ++ "): " ++ e =
        pre ++ e) ∧
    (find_venvs_list dirPath (FS.dir n (some e) sub :: rest) =
      ⟨"Error reading directory (" ++ displayPath (dirPath ++ [n]) ++ "): " ++ e,
        []⟩ :: find_venvs_list dirPath rest) := by
  refine ⟨by rw [find_venvs_dir],
    ⟨"Error reading directory (", "): " ++ e, by rw [String.append_assoc]⟩,
    ⟨"Error reading directory (" ++ displayPath dirPath ++ "): ", rfl⟩, ?_⟩
  rw [find_venvs_list, find_venvs_entry, if_neg (by simp [hn]), find_venvs_dir]
  simp

/-- Witness for C3 at a concrete unreadable directory beside a sibling. -/
theorem scanner_unreadable_dir_diagnostic_witness :
    is_venv ([] : List FS) = false ∧
    find_venvs_list ["root"]
        [FS.dir "locked" (some "denied") [], FS.file "sibling"] =
      ⟨"Error reading directory (" ++ displayPath (["root"] ++ ["locked"]) ++
          "): " ++ "denied", []⟩ ::
        find_venvs_list ["root"] [FS.file "sibling"] :=
  ⟨rfl,
    (scanner_unreadable_dir_diagnostic ["root"] "denied" [] "locked" []
      [FS.file "sibling"] rfl).2.2.2⟩

/-- C4: the aggregator concatenates scanner output (only when a worktree
is supplied) with the conda reader and parser output in that order, with
no deduplication and no sorting; when the conda reader fails, the
external source contributes exactly zero records while the scanner's
records are still returned. -/
theorem get_all_python_environments_order (fs : List FS)
    (conda : Except String String) (wt : Worktree) :
    (get_all_python_environments fs conda (some wt) =
      find_venvs_from_worktree wt ++
        (match find_envs_from_conda fs conda with
         | .ok conda_envs => conda_envs
         | .error _ => [])) ∧
    (get_all_python_environments fs conda none =
      (match find_envs_from_conda fs conda with
       | .ok conda_envs => conda_envs
       | .error _ => [])) ∧
    (∀ msg, conda = .error msg →
      get_all_python_environments fs conda (some wt) =
        find_venvs_from_worktree wt) := by
  refine ⟨rfl, by simp [get_all_python_environments], ?_⟩
  intro msg h
  subst h
  simp [get_all_python_environments, find_envs_from_conda]

/-- Witness for C4 with a failing conda invocation. -/
theorem get_all_python_environments_order_witness :
    (Except.error "conda missing" : Except String String) =
      Except.error "conda missing" ∧
    get_all_python_environments [] (Except.error "conda missing")
        (some ⟨["root"], none, [FS.file "readme"]⟩) =
      find_venvs_from_worktree ⟨["root"], none, [FS.file "readme"]⟩ :=
  ⟨rfl,
    (get_all_python_environments_order [] (Except.error "conda missing")
      ⟨["root"], none, [FS.file "readme"]⟩).2.2 "conda missing" rfl⟩

/-- Every record's name length is bounded by the computed maximum. -/
theorem name_length_le_max {e : PythonEnvironment} :
    ∀ {envs : List PythonEnvironment}, e ∈ envs →
      e.name.length ≤ max_name_length envs := by
  intro envs h
  induction envs with
  | nil => cases h
  | cons a t ih =>
    rcases List.mem_cons.mp h with rfl | hm
    · simp [max_name_length]
    · exact le_trans (ih hm) (by simp [max_name_length])

/-- Padding a name yields the larger of its length and the width. -/
theorem pad_name_length (s : String) (w : Nat) :
    (pad_name s w).length = max s.length w := by
  have hrep : (String.mk (List.replicate (w - s.length) ' ')).length =
      w - s.length := by
    show (List.replicate (w - s.length) ' ').length = w - s.length
    simp
  rw [pad_name, String.length_append, hrep]
  omega

/-- C8: for every non-empty record sequence, rendering pads each name
with trailing spaces to the maximum name length over all records, then
appends four spaces and the record's displayed path per line (an empty
interpreter path renders as an empty string after the padding); every
padded name has length exactly the maximum. -/
theorem render_envs_alignment (envs : List PythonEnvironment)
    (h : envs ≠ []) :
    (render_envs envs =
      "======\n " ++
        String.intercalate "\n" (envs.map fun e =>
          (e.name ++
              String.mk (List.replicate (max_name_length envs - e.name.length) ' ')) ++
            "    " ++ displayPath e.python_path) ++
        " ======" ++ "\nlen: " ++ toString envs.length) ∧
    (∀ e ∈ envs, e.name.length ≤ max_name_length envs) ∧
    (∀ e ∈ envs,
      (pad_name e.name (max_name_length envs)).length = max_name_length envs) ∧
    (∀ e ∈ envs, e.python_path = [] →
      format_env (max_name_length envs) e =
        pad_name e.name (max_name_length envs) ++ "    ") := by
  refine ⟨rfl, fun e he => name_length_le_max he, fun e he => ?_, fun e he hp => ?_⟩
  · rw [pad_name_length]
    exact Nat.max_eq_right (name_length_le_max he)
  · rw [format_env, hp]
    show pad_name e.name (max_name_length envs) ++ "    " ++ displayPath [] =
      pad_name e.name (max_name_length envs) ++ "    "
    rw [displayPath, String.intercalate]
    exact String.append_empty _

/-- Witness for C8: the record named x is padded to the length of the
record named longname. -/
theorem render_envs_alignment_witness :
    ([⟨"x", []⟩, ⟨"longname", ["p", "bin", "python"]⟩] :
        List PythonEnvironment) ≠ [] ∧
    (pad_name "x"
        (max_name_length [⟨"x", []⟩, ⟨"longname", ["p", "bin", "python"]⟩])).length =
      max_name_length [⟨"x", []⟩, ⟨"longname", ["p", "bin", "python"]⟩] ∧
    max_name_length [⟨"x", []⟩, ⟨"longname", ["p", "bin", "python"]⟩] =
      ("longname" : String).length :=
  ⟨by simp,
    (render_envs_alignment [⟨"x", []⟩, ⟨"longname", ["p", "bin", "python"]⟩]
      (by simp)).2.2.1 ⟨"x", []⟩ (by simp),
    rfl⟩

/-- C9: for every command name other than the recognized ones, both
argument completion and command execution return an error whose message
contains the unrecognized name, and no output value is produced (the
result is the error alternative of the interface). -/
theorem unknown_command_is_error (fs : List FS)
    (conda : Except String String) (cmd : SlashCommand) (args : List String)
    (wt : Option Worktree) (h1 : cmd.name ≠ "pyenvcur")
    (h2 : cmd.name ≠ "pyenvlst") (h3 : cmd.name ≠ "pyenvselect") :
    (run_slash_command fs conda cmd args wt =
      Except.error ("unknown slash command: \"" ++ cmd.name ++ "\"")) ∧
    (complete_slash_command_argument cmd args =
      Except.error ("unknown slash command: \"" ++ cmd.name ++ "\"")) ∧
    (∃ pre post,
      ("unknown slash command: \"" ++ cmd.name ++ "\"" : String) =
        pre ++ cmd.name ++ post) := by
  refine ⟨?_, ?_, "unknown slash command: \"", "\"", rfl⟩
  · simp [run_slash_command, h1, h2, h3]
  · simp [complete_slash_command_argument, h1, h2, h3]

/-- Witness for C9 at a concrete unrecognized command name. -/
theorem unknown_command_is_error_witness :
    (SlashCommand.mk "bogus").name ≠ "pyenvcur" ∧
    run_slash_command [] (Except.error "e") ⟨"bogus"⟩ [] none =
      Except.error ("unknown slash command: \"" ++
        (SlashCommand.mk "bogus").name ++ "\"") :=
  ⟨by decide,
    (unknown_command_is_error [] (Except.error "e") ⟨"bogus"⟩ [] none
      (by decide) (by decide) (by decide)).1⟩

mutual

/-- Provenance for one scanner entry: a record with an empty interpreter
path can only be a directory-read diagnostic. -/
theorem diag_from_unreadable_entry (dirPath : List String) (f : FS) :
    ∀ r ∈ find_venvs_entry dirPath f, r.python_path = [] →
      ∃ p err,
        r.name = "Error reading directory (" ++ displayPath p ++ "): " ++ err := by
  match f with
  | .file n => intro r hr; rw [find_venvs_entry] at hr; cases hr
  | .badEntry => intro r hr; rw [find_venvs_entry] at hr; cases hr
  | .dir n readErr sub =>
    intro r hr hp
    rw [find_venvs_entry] at hr
    by_cases hv : is_venv sub
    · rw [if_pos hv] at hr
      by_cases hx : pathExists sub ["bin", "python"]
      · simp only [find_python_executable, hx, if_true, List.mem_singleton] at hr
        subst hr
        simp at hp
      · simp only [find_python_executable, hx, Bool.false_eq_true, if_false,
          List.not_mem_nil] at hr
    · rw [if_neg hv] at hr
      exact diag_from_unreadable_dir (dirPath ++ [n]) readErr sub r hr hp

/-- Provenance for one scanned directory. -/
theorem diag_from_unreadable_dir (dirPath : List String)
    (readErr : Option String) (entries : List FS) :
    ∀ r ∈ find_venvs_dir dirPath readErr entries, r.python_path = [] →
      ∃ p err,
        r.name = "Error reading directory (" ++ displayPath p ++ "): " ++ err := by
  match readErr with
  | some e =>
    intro r hr _
    rw [find_venvs_dir, List.mem_singleton] at hr
    subst hr
    exact ⟨dirPath, e, rfl⟩
  | none =>
    intro r hr hp
    rw [find_venvs_dir] at hr
    exact diag_from_unreadable_list dirPath entries r hr hp

/-- Provenance across a directory listing. -/
theorem diag_from_unreadable_list (dirPath : List String) (l : List FS) :
    ∀ r ∈ find_venvs_list dirPath l, r.python_path = [] →
      ∃ p err,
        r.name = "Error reading directory (" ++ displayPath p ++ "): " ++ err := by
  match l with
  | [] => intro r hr; rw [find_venvs_list] at hr; cases hr
  | f :: rest =>
    intro r hr hp
    rw [find_venvs_list] at hr
    rcases List.mem_append.mp hr with hm | hm
    · exact diag_from_unreadable_entry dirPath f r hm hp
    · exact diag_from_unreadable_list dirPath rest r hm hp

end

/-- C10: an entry that yields an error during iteration of a readable
directory is silently skipped, producing no record and no diagnostic,
and diagnostic records (the ones with an empty interpreter path) arise
only from failure to read a directory itself. -/
theorem entry_error_silently_skipped (dirPath : List String)
    (rest : List FS) :
    (find_venvs_entry dirPath FS.badEntry = []) ∧
    (find_venvs_list dirPath (FS.badEntry :: rest) =
      find_venvs_list dirPath rest) ∧
    (∀ r ∈ find_venvs_list dirPath rest, r.python_path = [] →
      ∃ p err,
        r.name = "Error reading directory (" ++ displayPath p ++ "): " ++ err) := by
  refine ⟨by rw [find_venvs_entry], ?_, fun r => diag_from_unreadable_list dirPath rest r⟩
  rw [find_venvs_list, find_venvs_entry]
  simp

/-- Witness for C10: a bad entry beside an unreadable directory is
dropped, and the sole empty-path record is that directory's diagnostic. -/
theorem entry_error_silently_skipped_witness :
    find_venvs_list [] [FS.badEntry, FS.dir "d" (some "denied") []] =
      find_venvs_list [] [FS.dir "d" (some "denied") []] ∧
    (⟨"Error reading directory (d): denied", []⟩ : PythonEnvironment) ∈
      find_venvs_list [] [FS.dir "d" (some "denied") []] ∧
    ∃ p err,
      (⟨"Error reading directory (d): denied", []⟩ : PythonEnvironment).name =
        "Error reading directory (" ++ displayPath p ++ "): " ++ err := by
  have h := entry_error_silently_skipped []
    [FS.dir "d" (some "denied") []]
  have hmem : (⟨"Error reading directory (d): denied", []⟩ : PythonEnvironment) ∈
      find_venvs_list [] [FS.dir "d" (some "denied") []] := by
    rw [find_venvs_list, find_venvs_entry, if_neg (by simp [is_venv, pathExists, childNamed]),
      find_venvs_dir]
    simp only [List.singleton_append, List.mem_cons]
    exact Or.inl (by decide)
  exact ⟨h.2.1, hmem, h.2.2 _ hmem rfl⟩

end PyEnvSelect
